import Mathlib

/-!
Verification of the sales-bonus repository (src/main.js and the unnamed
variant, which implement the same `analyzeSalesData` pipeline).

Shallow embedding conventions:
* JS numbers are modelled as `ℚ`; the JS `NaN` that arises from
  `x + undefined` is modelled by `Option ℚ` with `none` playing NaN.
* A possibly-absent JS value (e.g. `record.total_amount`, the `data`
  argument, the three collections) is an `Option`.
* A JS object used as a string-keyed map (`products_sold`, built by
  insertion) is an association list in key-insertion order.
* The policy slots of `options` model JS truthiness: a slot is either
  absent (`missing`), a function (`fn f`), or a non-function value of
  which only its truthiness matters (`nonFn truthy`).
* `Array.prototype.sort` is stable (ECMAScript), with comparator
  `(a, b) => b.k - a.k`, i.e. descending by `k`; it is modelled by
  `List.mergeSort` with `le a b := decide (b.k ≤ a.k)`.
* `(+x.toFixed(2))` is modelled by `round2` (`toFixed` picks the larger
  candidate on ties, i.e. round half towards +∞, which is Mathlib's
  `round`); applied to NaN it stays NaN (`Option.map`).
-/

/-- A seller record of the input (`data.sellers` element). -/
structure Seller where
  id : ℤ
  first_name : String
  last_name : String
  deriving DecidableEq, Repr

/-- A product record of the input (`data.products` element). -/
structure Product where
  sku : String
  purchase_price : ℚ
  deriving DecidableEq, Repr

/-- A purchased item inside a record (`record.items` element). -/
structure Item where
  sku : String
  quantity : ℚ
  sale_price : ℚ
  discount : ℚ
  deriving DecidableEq, Repr

/-- A purchase record; `total_amount` is `none` when the field is absent. -/
structure PurchaseRecord where
  seller_id : ℤ
  items : List Item
  total_amount : Option ℚ
  deriving DecidableEq, Repr

/-- The `data` argument; each collection is `none` when missing or not an
array. -/
structure SalesData where
  sellers : Option (List Seller)
  products : Option (List Product)
  purchase_records : Option (List PurchaseRecord)

/-- The mutable per-seller accumulator built in step 3 of the source
(`sellerStats` element): `revenue : Option ℚ` models a number-or-NaN,
`products_sold` the insertion-ordered sku→quantity object. -/
structure SellerStat where
  id : ℤ
  name : String
  revenue : Option ℚ
  profit : ℚ
  sales_count : Nat
  products_sold : List (String × ℚ)
  deriving DecidableEq, Repr

/-- One element of the returned report array (step 8 of the source). -/
structure SellerReport where
  seller_id : ℤ
  name : String
  revenue : Option ℚ
  profit : ℚ
  sales_count : Nat
  top_products : List (String × ℚ)
  bonus : ℚ
  deriving DecidableEq, Repr

/-- The three distinct error messages thrown by `analyzeSalesData`,
as distinct kinds. -/
inductive AnalyzeError where
  | InvalidInputError
  | MissingPolicyError
  | InvalidPolicyTypeError
  deriving DecidableEq, Repr

/-- The `options.calculateRevenue` slot: absent, a function, or a
non-function value of the given truthiness. -/
inductive RevenueSlot where
  | missing
  | fn (f : Item → Product → ℚ)
  | nonFn (truthy : Bool)

/-- The `options.calculateBonus` slot. -/
inductive BonusSlot where
  | missing
  | fn (f : Nat → Nat → SellerStat → ℚ)
  | nonFn (truthy : Bool)

/-- The `options` argument. -/
structure SalesOptions where
  calculateRevenue : RevenueSlot
  calculateBonus : BonusSlot

/-- JS falsiness of the slot (`!calculateRevenue`): absent values and falsy
non-functions are falsy; functions are always truthy. -/
def RevenueSlot.isFalsy : RevenueSlot → Bool
  | .missing => true
  | .fn _ => false
  | .nonFn truthy => !truthy

/-- `typeof calculateRevenue === "function"`. -/
def RevenueSlot.isFunction : RevenueSlot → Bool
  | .fn _ => true
  | _ => false

/-- JS falsiness of the slot (`!calculateBonus`). -/
def BonusSlot.isFalsy : BonusSlot → Bool
  | .missing => true
  | .fn _ => false
  | .nonFn truthy => !truthy

/-- `typeof calculateBonus === "function"`. -/
def BonusSlot.isFunction : BonusSlot → Bool
  | .fn _ => true
  | _ => false

/-- `calculateSimpleRevenue(purchase, _product)` from src/main.js:
`sale_price * quantity * (1 - discount / 100)`. -/
def calculateSimpleRevenue (purchase : Item) (_product : Product) : ℚ :=
  purchase.sale_price * purchase.quantity * (1 - purchase.discount / 100)

/-- `calculateBonusByProfit(index, total, seller)` from src/main.js:
the tiered bonus policy, with its branches in source order. -/
def calculateBonusByProfit (index : Nat) (total : Nat) (seller : SellerStat) : ℚ :=
  if index = 0 then
    seller.profit * (15 / 100)
  else if index = 1 ∨ index = 2 then
    seller.profit * (10 / 100)
  else if index = total - 1 then
    0
  else
    seller.profit * (5 / 100)

/-- `+x.toFixed(2)`: round to 2 decimals, half towards +∞. -/
def round2 (q : ℚ) : ℚ :=
  (round (q * 100) : ℚ) / 100

/-- `seller.revenue += record.total_amount`: adding an absent value to a
number, or anything to NaN, is NaN (`none`). -/
def addTA : Option ℚ → Option ℚ → Option ℚ
  | some a, some b => some (a + b)
  | _, _ => none

/-- `productIndex[sku]`: the index is built by `forEach` assignment, so a
duplicate sku keeps the last product assigned to it. -/
def lookupProduct (ps : List Product) (sku : String) : Option Product :=
  (ps.filter fun p => decide (p.sku = sku)).getLast?

/-- One step of `seller.products_sold[item.sku] += item.quantity` (with the
`if (!...)` initialisation): update the sku in place, or append it. -/
def updateSold : List (String × ℚ) → String → ℚ → List (String × ℚ)
  | [], sku, q => [(sku, q)]
  | (k, v) :: rest, sku, q =>
    if k = sku then (k, v + q) :: rest
    else (k, v) :: updateSold rest sku q

/-- The body of `record.items.forEach(item => ...)`: skip unresolved skus,
otherwise add `calculateRevenue(item, product) - cost` to profit and
`item.quantity` to the per-sku map. -/
def processItem (calculateRevenue : Item → Product → ℚ) (ps : List Product)
    (st : SellerStat) (item : Item) : SellerStat :=
  match lookupProduct ps item.sku with
  | none => st
  | some product =>
    let cost := product.purchase_price * item.quantity
    let revenue := calculateRevenue item product
    let profit := revenue - cost
    { st with
        profit := st.profit + profit
        products_sold := updateSold st.products_sold item.sku item.quantity }

/-- The per-record update applied to the resolved seller accumulator:
`sales_count += 1`, `revenue += record.total_amount`, then the item loop. -/
def applyRecord (calculateRevenue : Item → Product → ℚ) (ps : List Product)
    (st : SellerStat) (r : PurchaseRecord) : SellerStat :=
  let st1 := { st with
      sales_count := st.sales_count + 1
      revenue := addTA st.revenue r.total_amount }
  r.items.foldl (processItem calculateRevenue ps) st1

/-- `sellerIndex[record.seller_id]` resolves to the accumulator object of
the last seller with that id (the index is built by assignment); here the
accumulators live in a list, so we return that position. -/
def lastIdxWithId : List SellerStat → ℤ → Option Nat
  | [], _ => none
  | st :: rest, sid =>
    match lastIdxWithId rest sid with
    | some j => some (j + 1)
    | none => if st.id = sid then some 0 else none

/-- Replace the element at position `i` by `f` of it. -/
def modifyAt : List α → Nat → (α → α) → List α
  | [], _, _ => []
  | a :: as, 0, f => f a :: as
  | a :: as, n + 1, f => a :: modifyAt as n f

/-- The body of `data.purchase_records.forEach(record => ...)`: resolve the
seller accumulator, skip the record if unresolved, otherwise apply the
per-record update in place. -/
def processRecord (calculateRevenue : Item → Product → ℚ) (ps : List Product)
    (stats : List SellerStat) (r : PurchaseRecord) : List SellerStat :=
  match lastIdxWithId stats r.seller_id with
  | none => stats
  | some i => modifyAt stats i fun st => applyRecord calculateRevenue ps st r

/-- Step 3: the fresh accumulator for one seller. -/
def initStat (s : Seller) : SellerStat :=
  { id := s.id
    name := s.first_name ++ " " ++ s.last_name
    revenue := some 0
    profit := 0
    sales_count := 0
    products_sold := [] }

/-- Step 3: `data.sellers.map(...)`. -/
def initStats (ss : List Seller) : List SellerStat :=
  ss.map initStat

/-- Steps 4–5: the fold of all purchase records over the accumulators. -/
def foldStats (calculateRevenue : Item → Product → ℚ) (ps : List Product)
    (ss : List Seller) (rs : List PurchaseRecord) : List SellerStat :=
  rs.foldl (processRecord calculateRevenue ps) (initStats ss)

/-- Step 6: `sellerStats.sort((a, b) => b.profit - a.profit)` — a stable
sort, descending by profit. -/
def sortStats (l : List SellerStat) : List SellerStat :=
  l.mergeSort fun a b => decide (b.profit ≤ a.profit)

/-- Steps 7–8 for one seller at rank `i` of `n`: bonus via the policy,
top-10 products by descending quantity, 2-decimal rounding of the money
fields. -/
def reportOf (calculateBonus : Nat → Nat → SellerStat → ℚ) (n i : Nat)
    (st : SellerStat) : SellerReport :=
  { seller_id := st.id
    name := st.name
    revenue := st.revenue.map round2
    profit := round2 st.profit
    sales_count := st.sales_count
    top_products :=
      (st.products_sold.mergeSort fun a b => decide (b.2 ≤ a.2)).take 10
    bonus := round2 (calculateBonus i n st) }

/-- Steps 7–8 over the sorted accumulators. -/
def emitReports (calculateBonus : Nat → Nat → SellerStat → ℚ)
    (sorted : List SellerStat) : List SellerReport :=
  sorted.enum.map fun p => reportOf calculateBonus sorted.length p.1 p.2

/-- The whole pipeline after validation (steps 3–8). -/
def analyzeCore (calculateRevenue : Item → Product → ℚ)
    (calculateBonus : Nat → Nat → SellerStat → ℚ) (ss : List Seller)
    (ps : List Product) (rs : List PurchaseRecord) : List SellerReport :=
  emitReports calculateBonus (sortStats (foldStats calculateRevenue ps ss rs))

/-- `analyzeSalesData(data, options)`: validation (steps 1–2, in source
order) and the pipeline; each `throw` is an `Except.error` of the matching
kind. -/
def analyzeSalesData (data : Option SalesData) (options : Option SalesOptions) :
    Except AnalyzeError (List SellerReport) :=
  match data with
  | none => .error .InvalidInputError
  | some d =>
    match d.sellers, d.products, d.purchase_records with
    | some ss, some ps, some rs =>
      if ss.isEmpty || ps.isEmpty || rs.isEmpty then
        .error .InvalidInputError
      else
        let opts := options.getD ⟨.missing, .missing⟩
        if opts.calculateRevenue.isFalsy || opts.calculateBonus.isFalsy then
          .error .MissingPolicyError
        else
          match opts.calculateRevenue, opts.calculateBonus with
          | .fn f, .fn g => .ok (analyzeCore f g ss ps rs)
          | _, _ => .error .InvalidPolicyTypeError
    | _, _, _ => .error .InvalidInputError

/-! ### Concrete inputs used by the claim theorems -/

/-- The standard option pair: both policies are the functions of src/main.js. -/
def optsStd : SalesOptions := ⟨.fn calculateSimpleRevenue, .fn calculateBonusByProfit⟩

/-- One seller, one product, and one record that carries no `total_amount`. -/
def dataC1 : SalesData :=
  ⟨some [⟨7, "C", "D"⟩], some [⟨"Y", 1⟩], some [⟨7, [⟨"Y", 3, 5, 0⟩], none⟩]⟩

/-- The report `analyzeSalesData` actually produces on `dataC1`:
revenue is NaN (`none`). -/
def reportC1 : SellerReport := ⟨7, "C D", none, 12, 1, [("Y", 3)], 9 / 5⟩

/-- The example scenario of the spec: record `{seller_id:1, items:[{sku:"X",
quantity:2, sale_price:20, discount:0}]}` with no `total_amount`. -/
def dataC2 : SalesData :=
  ⟨some [⟨1, "A", "B"⟩], some [⟨"X", 10⟩], some [⟨1, [⟨"X", 2, 20, 0⟩], none⟩]⟩

/-- The report `analyzeSalesData` actually produces on `dataC2`. -/
def reportC2 : SellerReport := ⟨1, "A B", none, 20, 1, [("X", 2)], 3⟩

/-- Two sellers whose records produce profits 100 and 50. -/
def dataC3 : SalesData :=
  ⟨some [⟨1, "A", "B"⟩, ⟨2, "C", "D"⟩], some [⟨"X", 0⟩],
   some [⟨1, [⟨"X", 1, 100, 0⟩], some 100⟩, ⟨2, [⟨"X", 1, 50, 0⟩], some 50⟩]⟩

/-- The accumulator of the rank-1 (last) seller in the `dataC3` run. -/
def statRank1 : SellerStat := ⟨2, "C D", some 50, 50, 1, [("X", 1)]⟩

/-! ### Preservation lemmas for the item loop -/

theorem processItem_revenue (f : Item → Product → ℚ) (ps : List Product)
    (st : SellerStat) (it : Item) :
    (processItem f ps st it).revenue = st.revenue := by
  unfold processItem
  cases lookupProduct ps it.sku <;> rfl

theorem foldl_processItem_revenue (f : Item → Product → ℚ) (ps : List Product) :
    ∀ (items : List Item) (st : SellerStat),
      (items.foldl (processItem f ps) st).revenue = st.revenue
  | [], _ => rfl
  | it :: items, st => by
    rw [List.foldl_cons, foldl_processItem_revenue f ps items, processItem_revenue]

/-! ### Claims C1–C3 -/

/-- C1 (counterexample): on a well-shaped record without a `total_amount`
field, the seller's reported revenue is NaN (`none`), not a number — the
code adds `record.total_amount` unconditionally and has no per-item
fallback. -/
theorem claim_C1_counterexample :
    analyzeSalesData (some dataC1) (some optsStd) = .ok [reportC1] ∧
      reportC1.revenue = none := by
  constructor
  · simp [analyzeSalesData, dataC1, optsStd, reportC1, analyzeCore, foldStats,
      initStats, initStat, processRecord, lastIdxWithId, modifyAt, applyRecord,
      processItem, lookupProduct, updateSold, addTA, sortStats, emitReports,
      reportOf, round2, calculateSimpleRevenue, calculateBonusByProfit,
      RevenueSlot.isFalsy, BonusSlot.isFalsy]
    norm_num
  · rfl

/-- C1 (amended): for every purchase record matched to a seller, the
record's `total_amount` is added to that seller's revenue when the record
carries one; when it is absent the seller's revenue becomes NaN (`none`) —
there is no fallback that derives the record's revenue from item fields. -/
theorem claim_C1 (f : Item → Product → ℚ) (ps : List Product)
    (st : SellerStat) (r : PurchaseRecord) :
    (applyRecord f ps st r).revenue =
      match r.total_amount with
      | some t => st.revenue.map fun v => v + t
      | none => none := by
  unfold applyRecord
  rw [foldl_processItem_revenue]
  cases r.total_amount <;> cases st.revenue <;> simp [addTA]

/-- C2 (counterexample): on the spec's example scenario the single report
has revenue NaN (`none`), not 40 — the example record carries no
`total_amount`, and the code adds that absent field unconditionally. -/
theorem claim_C2_counterexample :
    analyzeSalesData (some dataC2) (some optsStd) = .ok [reportC2] ∧
      reportC2.revenue ≠ some 40 := by
  constructor
  · simp [analyzeSalesData, dataC2, optsStd, reportC2, analyzeCore, foldStats,
      initStats, initStat, processRecord, lastIdxWithId, modifyAt, applyRecord,
      processItem, lookupProduct, updateSold, addTA, sortStats, emitReports,
      reportOf, round2, calculateSimpleRevenue, calculateBonusByProfit,
      RevenueSlot.isFalsy, BonusSlot.isFalsy]
    norm_num
  · simp [reportC2]

/-- C2 (amended): on the spec's example scenario `analyzeSalesData` returns
a single report with profit 20 and top_products `[{sku:"X", quantity:2}]`,
but its revenue is NaN (`none`) rather than 40, because the record carries
no `total_amount`. -/
theorem claim_C2 :
    analyzeSalesData (some dataC2) (some optsStd) = .ok [reportC2] ∧
      reportC2.profit = 20 ∧ reportC2.top_products = [("X", 2)] ∧
      reportC2.revenue = none := by
  refine ⟨?_, rfl, rfl, rfl⟩
  simp [analyzeSalesData, dataC2, optsStd, reportC2, analyzeCore, foldStats,
    initStats, initStat, processRecord, lastIdxWithId, modifyAt, applyRecord,
    processItem, lookupProduct, updateSold, addTA, sortStats, emitReports,
    reportOf, round2, calculateSimpleRevenue, calculateBonusByProfit,
    RevenueSlot.isFalsy, BonusSlot.isFalsy]
  norm_num

/-- C3 (counterexample): with two sellers, the seller at rank 1 (the last
one, profit 50) receives a bonus of 5 — ten percent of profit — not 0: the
`index === 1 || index === 2` branch fires before the last-rank branch. -/
theorem claim_C3_counterexample :
    calculateBonusByProfit 1 2 statRank1 = 5 ∧
      calculateBonusByProfit 1 2 statRank1 ≠ 0 := by
  constructor
  · norm_num [calculateBonusByProfit, statRank1]
  · norm_num [calculateBonusByProfit, statRank1]

/-- C3 (amended): with exactly two sellers of profits 100 and 50, rank 0
receives 15% of profit (15) and rank 1 receives 10% of profit (5): the
first-three-ranks rule takes precedence over the last-rank rule, not the
other way round. -/
theorem claim_C3 :
    analyzeSalesData (some dataC3) (some optsStd) =
      .ok [⟨1, "A B", some 100, 100, 1, [("X", 1)], 15⟩,
           ⟨2, "C D", some 50, 50, 1, [("X", 1)], 5⟩] := by
  simp [analyzeSalesData, dataC3, optsStd, analyzeCore, foldStats,
    initStats, initStat, processRecord, lastIdxWithId, modifyAt, applyRecord,
    processItem, lookupProduct, updateSold, addTA, sortStats, emitReports,
    reportOf, round2, calculateSimpleRevenue, calculateBonusByProfit,
    RevenueSlot.isFalsy, BonusSlot.isFalsy, List.mergeSort, List.splitInTwo,
    List.merge, List.enum, List.enumFrom]
  norm_num

/-- Shape validity of `data`, stated from the spec's words: `data` present,
all three collections present as proper sequences, none empty. -/
def wellShapedData : Option SalesData → Bool
  | none => false
  | some d =>
    match d.sellers, d.products, d.purchase_records with
    | some ss, some ps, some rs => !(ss.isEmpty || ps.isEmpty || rs.isEmpty)
    | _, _, _ => false

/-- Both policy slots are callables. -/
def validPolicies (options : Option SalesOptions) : Bool :=
  match options with
  | some o => o.calculateRevenue.isFunction && o.calculateBonus.isFunction
  | none => false

theorem analyzeSalesData_validData (ss : List Seller) (ps : List Product)
    (rs : List PurchaseRecord) (h1 : ss ≠ []) (h2 : ps ≠ []) (h3 : rs ≠ [])
    (options : Option SalesOptions) :
    analyzeSalesData (some ⟨some ss, some ps, some rs⟩) options =
      (let opts := options.getD ⟨.missing, .missing⟩
       if opts.calculateRevenue.isFalsy || opts.calculateBonus.isFalsy then
         .error .MissingPolicyError
       else
         match opts.calculateRevenue, opts.calculateBonus with
         | .fn f, .fn g => .ok (analyzeCore f g ss ps rs)
         | _, _ => .error .InvalidPolicyTypeError) := by
  simp [analyzeSalesData, h1, h2, h3]

/-- C4 (amended): with well-shaped data, `analyzeSalesData` raises
`MissingPolicyError` when either policy slot is falsy (absent, or present
but falsy), and `InvalidPolicyTypeError` when both slots are truthy but one
is not callable; either error is returned for every record collection, so
no purchase record is ever processed first. -/
theorem claim_C4 (ss : List Seller) (ps : List Product)
    (rs : List PurchaseRecord) (h1 : ss ≠ []) (h2 : ps ≠ []) (h3 : rs ≠ [])
    (opts : SalesOptions) :
    ((opts.calculateRevenue.isFalsy || opts.calculateBonus.isFalsy) = true →
      analyzeSalesData (some ⟨some ss, some ps, some rs⟩) (some opts) =
        .error .MissingPolicyError)
  ∧ (opts.calculateRevenue.isFalsy = false → opts.calculateBonus.isFalsy = false →
      (opts.calculateRevenue.isFunction = false ∨
        opts.calculateBonus.isFunction = false) →
      analyzeSalesData (some ⟨some ss, some ps, some rs⟩) (some opts) =
        .error .InvalidPolicyTypeError) := by
  rw [analyzeSalesData_validData ss ps rs h1 h2 h3]
  obtain ⟨cr, cb⟩ := opts
  constructor
  · intro hfal
    simp_all
  · intro ha hb hc
    cases cr <;> cases cb <;>
      simp_all [RevenueSlot.isFalsy, BonusSlot.isFalsy,
        RevenueSlot.isFunction, BonusSlot.isFunction]

/-- C4 witness: a truthy non-callable `calculateRevenue` yields
`InvalidPolicyTypeError`. -/
theorem claim_C4_witness :
    analyzeSalesData
        (some ⟨some [⟨1, "A", "B"⟩], some [⟨"X", 10⟩], some [⟨1, [], none⟩]⟩)
        (some ⟨.nonFn true, .fn calculateBonusByProfit⟩) =
      .error .InvalidPolicyTypeError :=
  (claim_C4 [⟨1, "A", "B"⟩] [⟨"X", 10⟩] [⟨1, [], none⟩]
      (by simp) (by simp) (by simp) ⟨.nonFn true, .fn calculateBonusByProfit⟩).2
    rfl rfl (Or.inl rfl)

/-- C4 (counterexample): a policy that is present but falsy and not
callable (e.g. the number 0) raises `MissingPolicyError`, not
`InvalidPolicyTypeError` — the truthiness check fires first. -/
theorem claim_C4_counterexample :
    analyzeSalesData (some dataC1) (some ⟨.nonFn false, .fn calculateBonusByProfit⟩) =
        .error .MissingPolicyError ∧
      AnalyzeError.MissingPolicyError ≠ AnalyzeError.InvalidPolicyTypeError := by
  constructor
  · simp [analyzeSalesData, dataC1, RevenueSlot.isFalsy]
  · simp

/-- C5: `analyzeSalesData` returns `InvalidInputError` exactly when `data`
is absent or one of the three collections is missing, not a sequence, or
empty; and on well-shaped data with callable policies it returns a result
(never an error). -/
theorem claim_C5 (data : Option SalesData) (options : Option SalesOptions) :
    (analyzeSalesData data options = .error .InvalidInputError ↔
      wellShapedData data = false)
  ∧ (wellShapedData data = true → validPolicies options = true →
      ∃ reports, analyzeSalesData data options = .ok reports) := by
  match data with
  | none => simp [analyzeSalesData, wellShapedData]
  | some ⟨ss?, ps?, rs?⟩ =>
    match ss?, ps?, rs? with
    | none, _, _ => simp [analyzeSalesData, wellShapedData]
    | some ss, none, _ => simp [analyzeSalesData, wellShapedData]
    | some ss, some ps, none => simp [analyzeSalesData, wellShapedData]
    | some ss, some ps, some rs =>
      by_cases he : ss.isEmpty || ps.isEmpty || rs.isEmpty
      · constructor
        · simp [analyzeSalesData, wellShapedData, he]
        · intro hws
          simp [wellShapedData, he] at hws
      · have h1 : ss ≠ [] := by simp_all
        have h2 : ps ≠ [] := by simp_all
        have h3 : rs ≠ [] := by simp_all
        rw [analyzeSalesData_validData ss ps rs h1 h2 h3]
        constructor
        · constructor
          · intro hres
            exfalso
            match options with
            | none => simp [RevenueSlot.isFalsy, BonusSlot.isFalsy] at hres
            | some ⟨cr, cb⟩ =>
              cases cr <;> cases cb <;>
                simp_all [RevenueSlot.isFalsy, BonusSlot.isFalsy] <;>
                split at hres <;> simp_all
          · intro hws
            simp [wellShapedData, he] at hws
        · intro _ hvp
          match options with
          | some ⟨cr, cb⟩ =>
            cases cr <;> cases cb <;>
              simp_all [RevenueSlot.isFalsy, BonusSlot.isFalsy,
                RevenueSlot.isFunction, BonusSlot.isFunction, validPolicies]

/-- C5 witness: on the example data and the standard policies the call
succeeds. -/
theorem claim_C5_witness :
    ∃ reports, analyzeSalesData (some dataC2) (some optsStd) = .ok reports :=
  (claim_C5 (some dataC2) (some optsStd)).2 rfl rfl

/-! ### Structural lemmas about the fold -/

theorem modifyAt_length : ∀ (l : List α) (i : Nat) (f : α → α),
    (modifyAt l i f).length = l.length
  | [], _, _ => rfl
  | _ :: _, 0, _ => rfl
  | a :: as, n + 1, f => by simp [modifyAt, modifyAt_length as n f]

theorem getElem?_modifyAt : ∀ (l : List α) (i j : Nat) (f : α → α),
    (modifyAt l i f)[j]? = if i = j then l[j]?.map f else l[j]?
  | [], i, j, f => by simp [modifyAt]
  | a :: as, 0, 0, f => by simp [modifyAt]
  | a :: as, 0, j + 1, f => by simp [modifyAt]
  | a :: as, i + 1, 0, f => by simp [modifyAt]
  | a :: as, i + 1, j + 1, f => by
    simp [modifyAt, getElem?_modifyAt as i j f]

theorem modifyAt_map_eq {g : α → β} {h : α → α} (hpres : ∀ a, g (h a) = g a) :
    ∀ (l : List α) (i : Nat), (modifyAt l i h).map g = l.map g
  | [], _ => rfl
  | a :: as, 0 => by simp [modifyAt, hpres]
  | a :: as, n + 1 => by simp [modifyAt, modifyAt_map_eq hpres as n]

theorem lastIdxWithId_eq_none {stats : List SellerStat} {sid : ℤ} :
    lastIdxWithId stats sid = none ↔ ∀ st ∈ stats, st.id ≠ sid := by
  induction stats with
  | nil => simp [lastIdxWithId]
  | cons a rest ih =>
    simp only [lastIdxWithId]
    cases h : lastIdxWithId rest sid with
    | some j =>
      simp only [reduceCtorEq, false_iff]
      intro hall
      exact absurd (ih.mpr fun st hst => hall st (List.mem_cons_of_mem a hst))
        (by simp [h])
    | none =>
      have hrest := ih.mp h
      by_cases ha : a.id = sid
      · rw [if_pos ha]
        exact iff_of_false (by simp)
          (fun hall => (List.forall_mem_cons.mp hall).1 ha)
      · rw [if_neg ha]
        exact iff_of_true rfl (List.forall_mem_cons.mpr ⟨ha, hrest⟩)

theorem lastIdxWithId_eq_some {stats : List SellerStat} {sid : ℤ} :
    ∀ {j : Nat}, lastIdxWithId stats sid = some j →
      ∃ st, stats[j]? = some st ∧ st.id = sid := by
  induction stats with
  | nil => intro j h; simp [lastIdxWithId] at h
  | cons a rest ih =>
    intro j h
    simp only [lastIdxWithId] at h
    cases h' : lastIdxWithId rest sid with
    | some k =>
      rw [h'] at h
      obtain ⟨st, hst, hid⟩ := ih h'
      cases h
      exact ⟨st, by simpa using hst, hid⟩
    | none =>
      rw [h'] at h
      by_cases ha : a.id = sid
      · rw [if_pos ha] at h
        cases h
        exact ⟨a, by simp, ha⟩
      · rw [if_neg ha] at h
        cases h

theorem lastIdxWithId_of_nodup {stats : List SellerStat} {sid : ℤ} :
    ∀ {i : Nat} {st : SellerStat},
      (stats.map SellerStat.id).Nodup → stats[i]? = some st → st.id = sid →
      lastIdxWithId stats sid = some i := by
  induction stats with
  | nil => intro i st _ hget; simp at hget
  | cons a rest ih =>
    intro i st hnd hget hid
    cases i with
    | zero =>
      simp at hget
      cases hget
      have hnone : lastIdxWithId rest sid = none := by
        rw [lastIdxWithId_eq_none]
        intro st' hst' h'
        simp at hnd
        exact hnd.1 _ hst' (by rw [hid, h'])
      simp [lastIdxWithId, hnone, hid]
    | succ i' =>
      simp at hget
      have := ih (by simp at hnd; exact hnd.2) hget hid
      simp [lastIdxWithId, this]

/-! ### Field preservation through the item loop -/

theorem processItem_id (f : Item → Product → ℚ) (ps : List Product)
    (st : SellerStat) (it : Item) : (processItem f ps st it).id = st.id := by
  unfold processItem
  cases lookupProduct ps it.sku <;> rfl

theorem processItem_name (f : Item → Product → ℚ) (ps : List Product)
    (st : SellerStat) (it : Item) : (processItem f ps st it).name = st.name := by
  unfold processItem
  cases lookupProduct ps it.sku <;> rfl

theorem processItem_count (f : Item → Product → ℚ) (ps : List Product)
    (st : SellerStat) (it : Item) :
    (processItem f ps st it).sales_count = st.sales_count := by
  unfold processItem
  cases lookupProduct ps it.sku <;> rfl

theorem foldl_processItem_id (f : Item → Product → ℚ) (ps : List Product) :
    ∀ (items : List Item) (st : SellerStat),
      (items.foldl (processItem f ps) st).id = st.id
  | [], _ => rfl
  | it :: items, st => by
    rw [List.foldl_cons, foldl_processItem_id f ps items, processItem_id]

theorem foldl_processItem_name (f : Item → Product → ℚ) (ps : List Product) :
    ∀ (items : List Item) (st : SellerStat),
      (items.foldl (processItem f ps) st).name = st.name
  | [], _ => rfl
  | it :: items, st => by
    rw [List.foldl_cons, foldl_processItem_name f ps items, processItem_name]

theorem foldl_processItem_count (f : Item → Product → ℚ) (ps : List Product) :
    ∀ (items : List Item) (st : SellerStat),
      (items.foldl (processItem f ps) st).sales_count = st.sales_count
  | [], _ => rfl
  | it :: items, st => by
    rw [List.foldl_cons, foldl_processItem_count f ps items, processItem_count]

theorem applyRecord_id (f : Item → Product → ℚ) (ps : List Product)
    (st : SellerStat) (r : PurchaseRecord) :
    (applyRecord f ps st r).id = st.id := by
  unfold applyRecord
  rw [foldl_processItem_id]

theorem applyRecord_name (f : Item → Product → ℚ) (ps : List Product)
    (st : SellerStat) (r : PurchaseRecord) :
    (applyRecord f ps st r).name = st.name := by
  unfold applyRecord
  rw [foldl_processItem_name]

theorem applyRecord_count (f : Item → Product → ℚ) (ps : List Product)
    (st : SellerStat) (r : PurchaseRecord) :
    (applyRecord f ps st r).sales_count = st.sales_count + 1 := by
  unfold applyRecord
  rw [foldl_processItem_count]

/-! ### The record fold -/

theorem processRecord_length (f : Item → Product → ℚ) (ps : List Product)
    (stats : List SellerStat) (r : PurchaseRecord) :
    (processRecord f ps stats r).length = stats.length := by
  unfold processRecord
  cases lastIdxWithId stats r.seller_id with
  | none => rfl
  | some i => exact modifyAt_length stats i _

theorem processRecord_map_id (f : Item → Product → ℚ) (ps : List Product)
    (stats : List SellerStat) (r : PurchaseRecord) :
    (processRecord f ps stats r).map SellerStat.id = stats.map SellerStat.id := by
  unfold processRecord
  cases lastIdxWithId stats r.seller_id with
  | none => rfl
  | some i => exact modifyAt_map_eq (fun st => applyRecord_id f ps st r) stats i

theorem foldl_processRecord_length (f : Item → Product → ℚ) (ps : List Product) :
    ∀ (rs : List PurchaseRecord) (stats : List SellerStat),
      (rs.foldl (processRecord f ps) stats).length = stats.length
  | [], _ => rfl
  | r :: rs, stats => by
    rw [List.foldl_cons, foldl_processRecord_length f ps rs, processRecord_length]

theorem foldl_processRecord_map_id (f : Item → Product → ℚ) (ps : List Product) :
    ∀ (rs : List PurchaseRecord) (stats : List SellerStat),
      (rs.foldl (processRecord f ps) stats).map SellerStat.id =
        stats.map SellerStat.id
  | [], _ => rfl
  | r :: rs, stats => by
    rw [List.foldl_cons, foldl_processRecord_map_id f ps rs, processRecord_map_id]

theorem processRecord_of_no_match (f : Item → Product → ℚ) (ps : List Product)
    {stats : List SellerStat} {r : PurchaseRecord}
    (h : ∀ st ∈ stats, st.id ≠ r.seller_id) :
    processRecord f ps stats r = stats := by
  unfold processRecord
  rw [lastIdxWithId_eq_none.mpr h]

theorem getElem?_processRecord_of_ne (f : Item → Product → ℚ) (ps : List Product)
    {stats : List SellerStat} {r : PurchaseRecord} {i : Nat} {st : SellerStat}
    (hget : stats[i]? = some st) (hne : st.id ≠ r.seller_id) :
    (processRecord f ps stats r)[i]? = some st := by
  unfold processRecord
  cases h : lastIdxWithId stats r.seller_id with
  | none => exact hget
  | some j =>
    rw [getElem?_modifyAt]
    obtain ⟨st', hst', hid'⟩ := lastIdxWithId_eq_some h
    have hji : j ≠ i := by
      intro hji
      rw [hji, hget] at hst'
      cases hst'
      exact hne hid'
    rw [if_neg hji, hget]

theorem getElem?_processRecord_of_eq (f : Item → Product → ℚ) (ps : List Product)
    {stats : List SellerStat} {r : PurchaseRecord} {i : Nat} {st : SellerStat}
    (hnd : (stats.map SellerStat.id).Nodup)
    (hget : stats[i]? = some st) (heq : st.id = r.seller_id) :
    (processRecord f ps stats r)[i]? = some (applyRecord f ps st r) := by
  unfold processRecord
  rw [lastIdxWithId_of_nodup hnd hget heq, getElem?_modifyAt, if_pos rfl, hget]
  rfl

/-- The per-seller view of one step of the record fold: the accumulator of a
seller is updated by a record exactly when the record's `seller_id` is the
seller's id. -/
def recordStep (f : Item → Product → ℚ) (ps : List Product)
    (st : SellerStat) (r : PurchaseRecord) : SellerStat :=
  if r.seller_id = st.id then applyRecord f ps st r else st

/-- The accumulator that the run builds for one seller (assuming distinct
seller ids): their fresh accumulator folded over all purchase records. -/
def statFor (f : Item → Product → ℚ) (ps : List Product)
    (rs : List PurchaseRecord) (s : Seller) : SellerStat :=
  rs.foldl (recordStep f ps) (initStat s)

theorem recordStep_id (f : Item → Product → ℚ) (ps : List Product)
    (st : SellerStat) (r : PurchaseRecord) :
    (recordStep f ps st r).id = st.id := by
  unfold recordStep
  split
  · exact applyRecord_id f ps st r
  · rfl

theorem foldl_recordStep_id (f : Item → Product → ℚ) (ps : List Product) :
    ∀ (rs : List PurchaseRecord) (st : SellerStat),
      (rs.foldl (recordStep f ps) st).id = st.id
  | [], _ => rfl
  | r :: rs, st => by
    rw [List.foldl_cons, foldl_recordStep_id f ps rs, recordStep_id]

theorem foldl_processRecord_getElem?_nodup (f : Item → Product → ℚ)
    (ps : List Product) :
    ∀ (rs : List PurchaseRecord) (stats : List SellerStat) (i : Nat)
      (st : SellerStat), (stats.map SellerStat.id).Nodup →
      stats[i]? = some st →
      (rs.foldl (processRecord f ps) stats)[i]? =
        some (rs.foldl (recordStep f ps) st)
  | [], stats, i, st, _, hget => hget
  | r :: rs, stats, i, st, hnd, hget => by
    rw [List.foldl_cons, List.foldl_cons]
    have hnd' : ((processRecord f ps stats r).map SellerStat.id).Nodup := by
      rw [processRecord_map_id]; exact hnd
    by_cases hid : st.id = r.seller_id
    · have hstep : recordStep f ps st r = applyRecord f ps st r := by
        unfold recordStep; rw [if_pos hid.symm]
      rw [hstep]
      exact foldl_processRecord_getElem?_nodup f ps rs _ i _ hnd'
        (getElem?_processRecord_of_eq f ps hnd hget hid)
    · have hstep : recordStep f ps st r = st := by
        unfold recordStep; rw [if_neg (fun h => hid h.symm)]
      rw [hstep]
      exact foldl_processRecord_getElem?_nodup f ps rs _ i _ hnd'
        (getElem?_processRecord_of_ne f ps hget hid)

/-- With distinct seller ids, the folded accumulator list is exactly the
per-seller accumulators, in input order. -/
theorem foldStats_eq_map_statFor (f : Item → Product → ℚ) (ps : List Product)
    (ss : List Seller) (rs : List PurchaseRecord)
    (hnd : (ss.map Seller.id).Nodup) :
    foldStats f ps ss rs = ss.map (statFor f ps rs) := by
  have hlen : (foldStats f ps ss rs).length = ss.length := by
    unfold foldStats
    rw [foldl_processRecord_length, initStats, List.length_map]
  have hndstats : ((initStats ss).map SellerStat.id).Nodup := by
    unfold initStats
    rw [List.map_map]
    exact hnd
  apply List.ext_getElem?
  intro i
  by_cases hi : i < ss.length
  · have hget : (initStats ss)[i]? = some (initStat ss[i]) := by
      unfold initStats
      rw [List.getElem?_map, List.getElem?_eq_getElem hi]
      rfl
    rw [foldStats, foldl_processRecord_getElem?_nodup f ps rs _ i _ hndstats hget,
      List.getElem?_map, List.getElem?_eq_getElem hi]
    rfl
  · rw [List.getElem?_eq_none (by rw [hlen]; omega),
      List.getElem?_eq_none (by rw [List.length_map]; omega)]

theorem mem_foldStats_nodup {f : Item → Product → ℚ} {ps : List Product}
    {ss : List Seller} {rs : List PurchaseRecord} {st : SellerStat}
    (hnd : (ss.map Seller.id).Nodup) (hst : st ∈ foldStats f ps ss rs) :
    ∃ s ∈ ss, st = statFor f ps rs s := by
  rw [foldStats_eq_map_statFor f ps ss rs hnd] at hst
  obtain ⟨s, hs, hmap⟩ := List.mem_map.mp hst
  exact ⟨s, hs, hmap.symm⟩

/-! ### Claim C6: silent skipping of unresolved references -/

theorem lookupProduct_eq_none {ps : List Product} {sku : String}
    (h : ∀ p ∈ ps, p.sku ≠ sku) : lookupProduct ps sku = none := by
  unfold lookupProduct
  rw [List.filter_eq_nil_iff.mpr (by simpa using h)]
  rfl

theorem processItem_skip (f : Item → Product → ℚ) (ps : List Product)
    (st : SellerStat) {it : Item} (h : lookupProduct ps it.sku = none) :
    processItem f ps st it = st := by
  unfold processItem
  rw [h]

theorem applyRecord_skip_item (f : Item → Product → ℚ) (ps : List Product)
    (st : SellerStat) {sid : ℤ} {ta : Option ℚ} {bad : Item}
    {is1 is2 : List Item} (hbad : lookupProduct ps bad.sku = none) :
    applyRecord f ps st ⟨sid, is1 ++ bad :: is2, ta⟩ =
      applyRecord f ps st ⟨sid, is1 ++ is2, ta⟩ := by
  unfold applyRecord
  rw [List.foldl_append, List.foldl_append, List.foldl_cons,
    processItem_skip f ps _ hbad]

theorem processRecord_skip_item (f : Item → Product → ℚ) (ps : List Product)
    (stats : List SellerStat) {sid : ℤ} {ta : Option ℚ} {bad : Item}
    {is1 is2 : List Item} (hbad : lookupProduct ps bad.sku = none) :
    processRecord f ps stats ⟨sid, is1 ++ bad :: is2, ta⟩ =
      processRecord f ps stats ⟨sid, is1 ++ is2, ta⟩ := by
  unfold processRecord
  cases lastIdxWithId stats sid with
  | none => rfl
  | some i =>
    show modifyAt stats i _ = modifyAt stats i _
    congr 1
    funext st
    exact applyRecord_skip_item f ps st hbad

/-- C6: a record whose `seller_id` matches no seller is skipped with no
effect at all on the pipeline's output, and within a matched record an item
whose sku matches no product is skipped while the record's other items (and
its `total_amount`) still apply — removing the unmatched record, or the
unmatched item, yields the same output. -/
theorem claim_C6 (f : Item → Product → ℚ) (g : Nat → Nat → SellerStat → ℚ)
    (ss : List Seller) (ps : List Product) (rs1 rs2 : List PurchaseRecord) :
    (∀ r : PurchaseRecord, (∀ s ∈ ss, s.id ≠ r.seller_id) →
      analyzeCore f g ss ps (rs1 ++ r :: rs2) = analyzeCore f g ss ps (rs1 ++ rs2))
  ∧ (∀ (sid : ℤ) (ta : Option ℚ) (bad : Item) (is1 is2 : List Item),
      (∀ p ∈ ps, p.sku ≠ bad.sku) →
      analyzeCore f g ss ps (rs1 ++ ⟨sid, is1 ++ bad :: is2, ta⟩ :: rs2) =
        analyzeCore f g ss ps (rs1 ++ ⟨sid, is1 ++ is2, ta⟩ :: rs2)) := by
  constructor
  · intro r hr
    unfold analyzeCore
    congr 1
    unfold sortStats
    congr 1
    unfold foldStats
    rw [List.foldl_append, List.foldl_append, List.foldl_cons]
    congr 1
    apply processRecord_of_no_match
    intro st hst
    have : st.id ∈ (rs1.foldl (processRecord f ps) (initStats ss)).map SellerStat.id :=
      List.mem_map_of_mem SellerStat.id hst
    rw [foldl_processRecord_map_id, initStats, List.map_map] at this
    obtain ⟨s, hs, hsid⟩ := List.mem_map.mp this
    rw [← hsid]
    exact hr s hs
  · intro sid ta bad is1 is2 hbad
    unfold analyzeCore
    congr 1
    unfold sortStats
    congr 1
    unfold foldStats
    rw [List.foldl_append, List.foldl_append, List.foldl_cons, List.foldl_cons]
    congr 1
    exact processRecord_skip_item f ps _ (lookupProduct_eq_none hbad)

/-- C6 witness: removing a record with an unknown seller id, or an item
with an unknown sku, leaves the output unchanged on a concrete input. -/
theorem claim_C6_witness :
    analyzeCore calculateSimpleRevenue calculateBonusByProfit
        [⟨1, "A", "B"⟩] [⟨"X", 10⟩] ([] ++ ⟨9, [⟨"X", 1, 5, 0⟩], some 5⟩ :: []) =
      analyzeCore calculateSimpleRevenue calculateBonusByProfit
        [⟨1, "A", "B"⟩] [⟨"X", 10⟩] ([] ++ []) :=
  (claim_C6 calculateSimpleRevenue calculateBonusByProfit
      [⟨1, "A", "B"⟩] [⟨"X", 10⟩] [] []).1
    ⟨9, [⟨"X", 1, 5, 0⟩], some 5⟩ (by intro s hs; simp at hs; simp [hs])

/-! ### Claim C7: ordering and stability of the profit sort -/

theorem statLE_trans (a b c : SellerStat) :
    decide (b.profit ≤ a.profit) → decide (c.profit ≤ b.profit) →
    decide (c.profit ≤ a.profit) := by
  simp only [decide_eq_true_eq]
  intro h1 h2
  exact le_trans h2 h1

theorem statLE_total (a b : SellerStat) :
    (decide (b.profit ≤ a.profit) || decide (a.profit ≤ b.profit)) = true := by
  simp only [Bool.or_eq_true, decide_eq_true_eq]
  exact le_total _ _

theorem sorted_sortStats (l : List SellerStat) :
    (sortStats l).Pairwise fun a b => b.profit ≤ a.profit := by
  have h : (l.mergeSort fun a b => decide (b.profit ≤ a.profit)).Pairwise
      (fun a b => decide (b.profit ≤ a.profit) = true) :=
    List.sorted_mergeSort statLE_trans statLE_total l
  exact h.imp fun hab => by simpa using hab

theorem round2_mono {a b : ℚ} (h : a ≤ b) : round2 a ≤ round2 b := by
  unfold round2
  have h1 : round (a * 100) ≤ round (b * 100) := by
    rw [round_eq, round_eq]
    exact Int.floor_mono (by linarith)
  have h2 : ((round (a * 100) : ℤ) : ℚ) ≤ ((round (b * 100) : ℤ) : ℚ) := by
    exact_mod_cast h1
  linarith

theorem sortStats_filter_profit (l : List SellerStat) (q : ℚ) :
    (sortStats l).filter (fun st => decide (st.profit = q)) =
      l.filter (fun st => decide (st.profit = q)) := by
  have hpair : (l.filter (fun st => decide (st.profit = q))).Pairwise
      (fun a b => decide (b.profit ≤ a.profit) = true) := by
    apply List.pairwise_of_forall_mem_list
    intro a ha b hb
    have ha' := of_decide_eq_true (List.mem_filter.mp ha).2
    have hb' := of_decide_eq_true (List.mem_filter.mp hb).2
    simp [ha', hb']
  have hsub : List.Sublist (l.filter fun st => decide (st.profit = q))
      (List.mergeSort l fun a b => decide (b.profit ≤ a.profit)) :=
    List.sublist_mergeSort statLE_trans statLE_total hpair (List.filter_sublist l)
  have hsub2 : List.Sublist (l.filter fun st => decide (st.profit = q))
      ((sortStats l).filter fun st => decide (st.profit = q)) := by
    have h2 := List.Sublist.filter (fun st => decide (st.profit = q)) hsub
    rwa [List.filter_eq_self.mpr
      (fun a ha => (List.mem_filter.mp ha).2)] at h2
  have hlen : ((sortStats l).filter (fun st => decide (st.profit = q))).length =
      (l.filter (fun st => decide (st.profit = q))).length :=
    ((List.mergeSort_perm l _).filter _).length_eq
  exact (hsub2.eq_of_length hlen.symm).symm

theorem analyzeSalesData_ok {ss : List Seller} {ps : List Product}
    {rs : List PurchaseRecord} {f : Item → Product → ℚ}
    {g : Nat → Nat → SellerStat → ℚ} {reports : List SellerReport}
    (h : analyzeSalesData (some ⟨some ss, some ps, some rs⟩)
        (some ⟨.fn f, .fn g⟩) = .ok reports) :
    reports = analyzeCore f g ss ps rs := by
  by_cases he : (ss.isEmpty || ps.isEmpty || rs.isEmpty) = true
  · exfalso
    simp [analyzeSalesData, he] at h
  · simp only [Bool.or_eq_true, List.isEmpty_eq_true, not_or] at he
    rw [analyzeSalesData_validData ss ps rs he.1.1 he.1.2 he.2] at h
    simp [RevenueSlot.isFalsy, BonusSlot.isFalsy] at h
    exact h.symm

/-- C7: every successful run's reports are sorted by non-increasing profit,
and the sort is stable: for each profit value, the accumulators carrying it
appear in the sorted list in their original (seller enumeration) order. -/
theorem claim_C7 (ss : List Seller) (ps : List Product)
    (rs : List PurchaseRecord) (f : Item → Product → ℚ)
    (g : Nat → Nat → SellerStat → ℚ) (reports : List SellerReport)
    (h : analyzeSalesData (some ⟨some ss, some ps, some rs⟩)
        (some ⟨.fn f, .fn g⟩) = .ok reports) :
    (reports.Pairwise fun a b => b.profit ≤ a.profit)
  ∧ ∀ q : ℚ, (sortStats (foldStats f ps ss rs)).filter
        (fun st => decide (st.profit = q)) =
      (foldStats f ps ss rs).filter (fun st => decide (st.profit = q)) := by
  obtain rfl := analyzeSalesData_ok h
  constructor
  · unfold analyzeCore emitReports
    rw [List.pairwise_map]
    have hs := sorted_sortStats (foldStats f ps ss rs)
    have hmap : ((List.enumFrom 0 (sortStats (foldStats f ps ss rs))).map
        Prod.snd).Pairwise (fun a b => b.profit ≤ a.profit) := by
      rw [List.enumFrom_map_snd]
      exact hs
    have he := List.pairwise_map.mp hmap
    rw [List.enum_eq_enumFrom]
    exact he.imp fun hpq => round2_mono hpq
  · intro q
    exact sortStats_filter_profit _ q

/-- C7 witness: the run on the one-record example is sorted and stable. -/
theorem claim_C7_witness :
    ([reportC2].Pairwise fun a b => b.profit ≤ a.profit)
  ∧ (sortStats (foldStats calculateSimpleRevenue [⟨"X", 10⟩] [⟨1, "A", "B"⟩]
        [⟨1, [⟨"X", 2, 20, 0⟩], none⟩])).filter
        (fun st => decide (st.profit = 20)) =
      (foldStats calculateSimpleRevenue [⟨"X", 10⟩] [⟨1, "A", "B"⟩]
        [⟨1, [⟨"X", 2, 20, 0⟩], none⟩]).filter
        (fun st => decide (st.profit = 20)) := by
  have h : analyzeSalesData
      (some ⟨some [⟨1, "A", "B"⟩], some [⟨"X", 10⟩],
        some [⟨1, [⟨"X", 2, 20, 0⟩], none⟩]⟩)
      (some ⟨.fn calculateSimpleRevenue, .fn calculateBonusByProfit⟩) =
      .ok [reportC2] := by
    simp [analyzeSalesData, reportC2, analyzeCore, foldStats,
      initStats, initStat, processRecord, lastIdxWithId, modifyAt, applyRecord,
      processItem, lookupProduct, updateSold, addTA, sortStats, emitReports,
      reportOf, round2, calculateSimpleRevenue, calculateBonusByProfit,
      RevenueSlot.isFalsy, BonusSlot.isFalsy]
    norm_num
  have hc := claim_C7 [⟨1, "A", "B"⟩] [⟨"X", 10⟩] [⟨1, [⟨"X", 2, 20, 0⟩], none⟩]
    calculateSimpleRevenue calculateBonusByProfit [reportC2] h
  exact ⟨hc.1, hc.2 20⟩

/-! ### Claims C9 and C10: one report per seller; per-record sales count -/

theorem foldl_processRecord_getElem?_unref (f : Item → Product → ℚ)
    (ps : List Product) :
    ∀ (rs : List PurchaseRecord) (stats : List SellerStat) (i : Nat)
      (st : SellerStat), stats[i]? = some st →
      (∀ r ∈ rs, r.seller_id ≠ st.id) →
      (rs.foldl (processRecord f ps) stats)[i]? = some st
  | [], _, _, _, hget, _ => hget
  | r :: rs, stats, i, st, hget, hall => by
    rw [List.foldl_cons]
    exact foldl_processRecord_getElem?_unref f ps rs _ i st
      (getElem?_processRecord_of_ne f ps hget
        (fun hc => hall r (List.mem_cons_self r rs) hc.symm))
      (fun r' hr' => hall r' (List.mem_cons_of_mem r hr'))

theorem emitReports_length (g : Nat → Nat → SellerStat → ℚ)
    (sorted : List SellerStat) :
    (emitReports g sorted).length = sorted.length := by
  simp [emitReports]

theorem getElem?_emitReports (g : Nat → Nat → SellerStat → ℚ)
    {sorted : List SellerStat} {i : Nat} {st : SellerStat}
    (hget : sorted[i]? = some st) :
    (emitReports g sorted)[i]? = some (reportOf g sorted.length i st) := by
  unfold emitReports
  rw [List.getElem?_map, List.enum_eq_enumFrom, List.getElem?_enumFrom, hget]
  simp

theorem analyzeCore_length (f : Item → Product → ℚ)
    (g : Nat → Nat → SellerStat → ℚ) (ss : List Seller) (ps : List Product)
    (rs : List PurchaseRecord) :
    (analyzeCore f g ss ps rs).length = ss.length := by
  unfold analyzeCore
  rw [emitReports_length]
  unfold sortStats
  rw [List.length_mergeSort]
  unfold foldStats
  rw [foldl_processRecord_length]
  unfold initStats
  rw [List.length_map]

theorem sortStats_length_eq (f : Item → Product → ℚ) (ss : List Seller)
    (ps : List Product) (rs : List PurchaseRecord) :
    (sortStats (foldStats f ps ss rs)).length = ss.length := by
  unfold sortStats
  rw [List.length_mergeSort]
  unfold foldStats
  rw [foldl_processRecord_length]
  unfold initStats
  rw [List.length_map]

theorem round2_zero : round2 0 = 0 := by
  unfold round2
  norm_num

/-- C9: every successful run returns exactly one report per input seller,
and a seller referenced by no purchase record appears with zero revenue,
profit and sales count, an empty top-products list, and the bonus the
policy returns for their fresh accumulator at their rank. -/
theorem claim_C9 (ss : List Seller) (ps : List Product)
    (rs : List PurchaseRecord) (f : Item → Product → ℚ)
    (g : Nat → Nat → SellerStat → ℚ) (reports : List SellerReport)
    (h : analyzeSalesData (some ⟨some ss, some ps, some rs⟩)
        (some ⟨.fn f, .fn g⟩) = .ok reports) :
    reports.length = ss.length
  ∧ ∀ s ∈ ss, (∀ r ∈ rs, r.seller_id ≠ s.id) →
      ∃ i rep, reports[i]? = some rep ∧ rep.seller_id = s.id ∧
        rep.name = s.first_name ++ " " ++ s.last_name ∧
        rep.revenue = some 0 ∧ rep.profit = 0 ∧ rep.sales_count = 0 ∧
        rep.top_products = [] ∧ rep.bonus = round2 (g i ss.length (initStat s)) := by
  obtain rfl := analyzeSalesData_ok h
  refine ⟨analyzeCore_length f g ss ps rs, ?_⟩
  intro s hs hunref
  obtain ⟨k, hk, hks⟩ := List.mem_iff_getElem.mp hs
  have hinit : (initStats ss)[k]? = some (initStat s) := by
    unfold initStats
    rw [List.getElem?_map, List.getElem?_eq_getElem hk, hks]
    rfl
  have hfold : (foldStats f ps ss rs)[k]? = some (initStat s) := by
    unfold foldStats
    exact foldl_processRecord_getElem?_unref f ps rs _ k _ hinit
      (fun r hr => hunref r hr)
  have hmem : initStat s ∈ foldStats f ps ss rs := List.getElem?_mem hfold
  have hsorted : initStat s ∈ sortStats (foldStats f ps ss rs) :=
    ((List.mergeSort_perm _ _).mem_iff).mpr hmem
  obtain ⟨i, hi, hieq⟩ := List.mem_iff_getElem.mp hsorted
  have hgeti : (sortStats (foldStats f ps ss rs))[i]? = some (initStat s) := by
    rw [List.getElem?_eq_getElem hi, hieq]
  refine ⟨i, reportOf g ss.length i (initStat s), ?_, rfl, rfl, ?_, ?_, rfl, ?_, rfl⟩
  · unfold analyzeCore
    rw [getElem?_emitReports g hgeti, sortStats_length_eq]
  · show ((initStat s).revenue).map round2 = some 0
    simp [initStat, round2_zero]
  · exact round2_zero
  · show (((initStat s).products_sold).mergeSort fun a b => decide (b.2 ≤ a.2)).take 10 = []
    simp [initStat]

/-- C9 witness: the unreferenced second seller gets a zeroed report. -/
theorem claim_C9_witness :
    ∃ i rep,
      (analyzeCore calculateSimpleRevenue calculateBonusByProfit
        [⟨1, "A", "B"⟩, ⟨2, "C", "D"⟩] [⟨"X", 10⟩]
        [⟨1, [⟨"X", 2, 20, 0⟩], some 40⟩])[i]? = some rep ∧
      rep.seller_id = 2 ∧ rep.name = "C" ++ " " ++ "D" ∧
      rep.revenue = some 0 ∧ rep.profit = 0 ∧ rep.sales_count = 0 ∧
      rep.top_products = [] ∧
      rep.bonus = round2 (calculateBonusByProfit i 2 (initStat ⟨2, "C", "D"⟩)) := by
  have h : analyzeSalesData
      (some ⟨some [⟨1, "A", "B"⟩, ⟨2, "C", "D"⟩], some [⟨"X", 10⟩],
        some [⟨1, [⟨"X", 2, 20, 0⟩], some 40⟩]⟩)
      (some ⟨.fn calculateSimpleRevenue, .fn calculateBonusByProfit⟩) =
      .ok (analyzeCore calculateSimpleRevenue calculateBonusByProfit
        [⟨1, "A", "B"⟩, ⟨2, "C", "D"⟩] [⟨"X", 10⟩]
        [⟨1, [⟨"X", 2, 20, 0⟩], some 40⟩]) := by
    simp [analyzeSalesData, RevenueSlot.isFalsy, BonusSlot.isFalsy]
  have hc := claim_C9 [⟨1, "A", "B"⟩, ⟨2, "C", "D"⟩] [⟨"X", 10⟩]
    [⟨1, [⟨"X", 2, 20, 0⟩], some 40⟩] calculateSimpleRevenue
    calculateBonusByProfit _ h
  exact hc.2 ⟨2, "C", "D"⟩ (by simp) (by intro r hr; simp at hr; simp [hr])

theorem foldl_recordStep_count (f : Item → Product → ℚ) (ps : List Product) :
    ∀ (rs : List PurchaseRecord) (st : SellerStat),
      (rs.foldl (recordStep f ps) st).sales_count =
        st.sales_count + (rs.filter fun r => decide (r.seller_id = st.id)).length
  | [], st => by simp
  | r :: rs, st => by
    rw [List.foldl_cons, foldl_recordStep_count f ps rs]
    by_cases hid : r.seller_id = st.id
    · have hstep : recordStep f ps st r = applyRecord f ps st r := by
        unfold recordStep
        rw [if_pos hid]
      rw [hstep]
      simp only [applyRecord_id, applyRecord_count]
      rw [List.filter_cons_of_pos (by simpa using hid)]
      simp only [List.length_cons]
      omega
    · have hstep : recordStep f ps st r = st := by
        unfold recordStep
        rw [if_neg hid]
      rw [hstep, List.filter_cons_of_neg (by simpa using hid)]

theorem statFor_id (f : Item → Product → ℚ) (ps : List Product)
    (rs : List PurchaseRecord) (s : Seller) :
    (statFor f ps rs s).id = s.id := by
  unfold statFor
  rw [foldl_recordStep_id]
  rfl

theorem statFor_count (f : Item → Product → ℚ) (ps : List Product)
    (rs : List PurchaseRecord) (s : Seller) :
    (statFor f ps rs s).sales_count =
      (rs.filter fun r => decide (r.seller_id = s.id)).length := by
  unfold statFor
  rw [foldl_recordStep_count]
  simp [initStat]

theorem mem_reports_statFor {f : Item → Product → ℚ}
    {g : Nat → Nat → SellerStat → ℚ} {ss : List Seller} {ps : List Product}
    {rs : List PurchaseRecord} {rep : SellerReport}
    (hnd : (ss.map Seller.id).Nodup)
    (hrep : rep ∈ analyzeCore f g ss ps rs) :
    ∃ s' ∈ ss, ∃ i : Nat,
      rep = reportOf g ss.length i (statFor f ps rs s') := by
  unfold analyzeCore emitReports at hrep
  obtain ⟨p, hp, hrep'⟩ := List.mem_map.mp hrep
  have hsnd : p.2 ∈ sortStats (foldStats f ps ss rs) := by
    have hm : p.2 ∈ ((sortStats (foldStats f ps ss rs)).enum).map Prod.snd :=
      List.mem_map_of_mem Prod.snd hp
    rwa [List.enum_eq_enumFrom, List.enumFrom_map_snd] at hm
  have hmem : p.2 ∈ foldStats f ps ss rs :=
    ((List.mergeSort_perm _ _).mem_iff).mp hsnd
  obtain ⟨s', hs', heq⟩ := mem_foldStats_nodup hnd hmem
  refine ⟨s', hs', p.1, ?_⟩
  rw [← hrep', heq, sortStats_length_eq]

/-- C10: for every successful run with distinct seller ids, a seller's
reported `sales_count` is exactly the number of purchase records whose
`seller_id` matches that seller — independent of the records' items. -/
theorem claim_C10 (ss : List Seller) (ps : List Product)
    (rs : List PurchaseRecord) (f : Item → Product → ℚ)
    (g : Nat → Nat → SellerStat → ℚ) (reports : List SellerReport)
    (hnd : (ss.map Seller.id).Nodup)
    (h : analyzeSalesData (some ⟨some ss, some ps, some rs⟩)
        (some ⟨.fn f, .fn g⟩) = .ok reports) :
    ∀ s ∈ ss, ∀ rep ∈ reports, rep.seller_id = s.id →
      rep.sales_count = (rs.filter fun r => decide (r.seller_id = s.id)).length := by
  obtain rfl := analyzeSalesData_ok h
  intro s hs rep hrep hid
  obtain ⟨s', hs', i, rfl⟩ := mem_reports_statFor hnd hrep
  have hid' : s'.id = s.id := by
    rw [← hid]
    show s'.id = (statFor f ps rs s').id
    rw [statFor_id]
  have hss : s' = s := List.inj_on_of_nodup_map hnd hs' hs hid'
  subst hss
  show (statFor f ps rs s').sales_count = _
  rw [statFor_count]

/-- C10 witness: a seller with two matching two-item records has
sales_count 2. -/
theorem claim_C10_witness :
    (⟨1, "A B", some 40, 20, 2, [("X", 2)], 3⟩ : SellerReport).sales_count =
      (([⟨1, [⟨"X", 1, 20, 0⟩], some 20⟩, ⟨1, [⟨"X", 1, 20, 0⟩], some 20⟩] :
        List PurchaseRecord).filter fun r => decide (r.seller_id = 1)).length := by
  have h : analyzeSalesData
      (some ⟨some [⟨1, "A", "B"⟩], some [⟨"X", 10⟩],
        some [⟨1, [⟨"X", 1, 20, 0⟩], some 20⟩, ⟨1, [⟨"X", 1, 20, 0⟩], some 20⟩]⟩)
      (some ⟨.fn calculateSimpleRevenue, .fn calculateBonusByProfit⟩) =
      .ok [⟨1, "A B", some 40, 20, 2, [("X", 2)], 3⟩] := by
    simp [analyzeSalesData, analyzeCore, foldStats,
      initStats, initStat, processRecord, lastIdxWithId, modifyAt, applyRecord,
      processItem, lookupProduct, updateSold, addTA, sortStats, emitReports,
      reportOf, round2, calculateSimpleRevenue, calculateBonusByProfit,
      RevenueSlot.isFalsy, BonusSlot.isFalsy, List.enum, List.enumFrom]
    norm_num
  exact claim_C10 [⟨1, "A", "B"⟩] [⟨"X", 10⟩]
    [⟨1, [⟨"X", 1, 20, 0⟩], some 20⟩, ⟨1, [⟨"X", 1, 20, 0⟩], some 20⟩]
    calculateSimpleRevenue calculateBonusByProfit _ (by simp) h
    ⟨1, "A", "B"⟩ (by simp) _ (by simp) rfl

/-! ### Claim C8: the top-products list -/

theorem fst_mem_updateSold : ∀ (m : List (String × ℚ)) (sku : String) (q : ℚ)
    (k : String), k ∈ (updateSold m sku q).map Prod.fst ↔
      k ∈ m.map Prod.fst ∨ k = sku
  | [], sku, q, k => by simp [updateSold]
  | (k0, v0) :: rest, sku, q, k => by
    unfold updateSold
    by_cases h : k0 = sku
    · subst h
      simp
      tauto
    · rw [if_neg h]
      simp only [List.map_cons, List.mem_cons, fst_mem_updateSold rest sku q k]
      tauto

theorem nodup_updateSold : ∀ (m : List (String × ℚ)) (sku : String) (q : ℚ),
    (m.map Prod.fst).Nodup → ((updateSold m sku q).map Prod.fst).Nodup
  | [], sku, q, _ => by simp [updateSold]
  | (k0, v0) :: rest, sku, q, h => by
    unfold updateSold
    by_cases hk : k0 = sku
    · rw [if_pos hk]
      simpa using h
    · rw [if_neg hk]
      simp only [List.map_cons, List.nodup_cons] at h ⊢
      refine ⟨?_, nodup_updateSold rest sku q h.2⟩
      intro hc
      rcases (fst_mem_updateSold rest sku q k0).mp hc with h1 | h2
      · exact h.1 h1
      · exact hk h2

theorem fst_mem_processItem (f : Item → Product → ℚ) (ps : List Product)
    (st : SellerStat) (it : Item) (k : String) :
    k ∈ (processItem f ps st it).products_sold.map Prod.fst ↔
      k ∈ st.products_sold.map Prod.fst ∨
        ((lookupProduct ps it.sku).isSome = true ∧ k = it.sku) := by
  unfold processItem
  cases h : lookupProduct ps it.sku with
  | none => simp [h]
  | some p =>
    show k ∈ (updateSold st.products_sold it.sku it.quantity).map Prod.fst ↔ _
    rw [fst_mem_updateSold]
    simp [h]

theorem nodup_processItem (f : Item → Product → ℚ) (ps : List Product)
    (st : SellerStat) (it : Item)
    (h : (st.products_sold.map Prod.fst).Nodup) :
    ((processItem f ps st it).products_sold.map Prod.fst).Nodup := by
  unfold processItem
  cases lookupProduct ps it.sku with
  | none => exact h
  | some p => exact nodup_updateSold _ _ _ h

theorem fst_mem_foldl_processItem (f : Item → Product → ℚ) (ps : List Product) :
    ∀ (items : List Item) (st : SellerStat) (k : String),
      k ∈ ((items.foldl (processItem f ps) st).products_sold.map Prod.fst) ↔
        k ∈ st.products_sold.map Prod.fst ∨
          k ∈ (items.filter fun it => (lookupProduct ps it.sku).isSome).map Item.sku
  | [], st, k => by simp
  | it :: items, st, k => by
    rw [List.foldl_cons, fst_mem_foldl_processItem f ps items _ k,
      fst_mem_processItem]
    by_cases h : (lookupProduct ps it.sku).isSome = true
    · simp only [List.filter_cons, h, if_true, List.map_cons, List.mem_cons,
        true_and]
      tauto
    · simp [List.filter_cons, h]

theorem nodup_foldl_processItem (f : Item → Product → ℚ) (ps : List Product) :
    ∀ (items : List Item) (st : SellerStat),
      (st.products_sold.map Prod.fst).Nodup →
      (((items.foldl (processItem f ps) st).products_sold.map Prod.fst)).Nodup
  | [], _, h => h
  | it :: items, st, h => by
    rw [List.foldl_cons]
    exact nodup_foldl_processItem f ps items _ (nodup_processItem f ps st it h)

theorem fst_mem_applyRecord (f : Item → Product → ℚ) (ps : List Product)
    (st : SellerStat) (r : PurchaseRecord) (k : String) :
    k ∈ (applyRecord f ps st r).products_sold.map Prod.fst ↔
      k ∈ st.products_sold.map Prod.fst ∨
        k ∈ (r.items.filter fun it => (lookupProduct ps it.sku).isSome).map Item.sku := by
  unfold applyRecord
  rw [fst_mem_foldl_processItem]

theorem nodup_applyRecord (f : Item → Product → ℚ) (ps : List Product)
    (st : SellerStat) (r : PurchaseRecord)
    (h : (st.products_sold.map Prod.fst).Nodup) :
    ((applyRecord f ps st r).products_sold.map Prod.fst).Nodup := by
  unfold applyRecord
  exact nodup_foldl_processItem f ps r.items _ h

/-- The skus of a seller's purchased items that resolve to a product — the
keys the fold records in `products_sold`. -/
def matchedSkus (ps : List Product) (rs : List PurchaseRecord) (sid : ℤ) :
    List String :=
  ((rs.filter fun r => decide (r.seller_id = sid)).flatMap fun r =>
    r.items.filter fun it => (lookupProduct ps it.sku).isSome).map Item.sku

/-- All skus purchased from a seller, whether or not they resolve. -/
def purchasedSkus (rs : List PurchaseRecord) (sid : ℤ) : List String :=
  ((rs.filter fun r => decide (r.seller_id = sid)).flatMap
    PurchaseRecord.items).map Item.sku

theorem fst_mem_foldl_recordStep (f : Item → Product → ℚ) (ps : List Product) :
    ∀ (rs : List PurchaseRecord) (st : SellerStat) (k : String),
      k ∈ ((rs.foldl (recordStep f ps) st).products_sold.map Prod.fst) ↔
        k ∈ st.products_sold.map Prod.fst ∨ k ∈ matchedSkus ps rs st.id
  | [], st, k => by simp [matchedSkus]
  | r :: rs, st, k => by
    rw [List.foldl_cons]
    by_cases hid : r.seller_id = st.id
    · have hstep : recordStep f ps st r = applyRecord f ps st r := by
        unfold recordStep
        rw [if_pos hid]
      rw [hstep, fst_mem_foldl_recordStep f ps rs _ k]
      simp only [applyRecord_id]
      rw [fst_mem_applyRecord]
      unfold matchedSkus
      rw [List.filter_cons_of_pos (by simpa using hid)]
      simp only [List.flatMap_cons, List.map_append, List.mem_append]
      tauto
    · have hstep : recordStep f ps st r = st := by
        unfold recordStep
        rw [if_neg hid]
      rw [hstep, fst_mem_foldl_recordStep f ps rs st k]
      unfold matchedSkus
      rw [List.filter_cons_of_neg (by simpa using hid)]

theorem nodup_foldl_recordStep (f : Item → Product → ℚ) (ps : List Product) :
    ∀ (rs : List PurchaseRecord) (st : SellerStat),
      (st.products_sold.map Prod.fst).Nodup →
      ((rs.foldl (recordStep f ps) st).products_sold.map Prod.fst).Nodup
  | [], _, h => h
  | r :: rs, st, h => by
    rw [List.foldl_cons]
    apply nodup_foldl_recordStep f ps rs
    unfold recordStep
    split
    · exact nodup_applyRecord f ps st r h
    · exact h

theorem fst_mem_statFor (f : Item → Product → ℚ) (ps : List Product)
    (rs : List PurchaseRecord) (s : Seller) (k : String) :
    k ∈ (statFor f ps rs s).products_sold.map Prod.fst ↔
      k ∈ matchedSkus ps rs s.id := by
  unfold statFor
  rw [fst_mem_foldl_recordStep]
  simp [initStat]

theorem nodup_statFor (f : Item → Product → ℚ) (ps : List Product)
    (rs : List PurchaseRecord) (s : Seller) :
    ((statFor f ps rs s).products_sold.map Prod.fst).Nodup := by
  unfold statFor
  apply nodup_foldl_recordStep
  simp [initStat]

theorem statFor_sold_length (f : Item → Product → ℚ) (ps : List Product)
    (rs : List PurchaseRecord) (s : Seller) :
    (statFor f ps rs s).products_sold.length =
      (matchedSkus ps rs s.id).dedup.length := by
  have h1 : (statFor f ps rs s).products_sold.length =
      ((statFor f ps rs s).products_sold.map Prod.fst).length := by
    rw [List.length_map]
  have h2 : ((statFor f ps rs s).products_sold.map Prod.fst).toFinset =
      (matchedSkus ps rs s.id).toFinset := by
    ext a
    simp only [List.mem_toFinset]
    exact fst_mem_statFor f ps rs s a
  rw [h1, ← List.toFinset_card_of_nodup (nodup_statFor f ps rs s), h2,
    List.card_toFinset]

theorem qtyLE_trans (a b c : String × ℚ) :
    decide (b.2 ≤ a.2) → decide (c.2 ≤ b.2) → decide (c.2 ≤ a.2) := by
  simp only [decide_eq_true_eq]
  intro h1 h2
  exact le_trans h2 h1

theorem qtyLE_total (a b : String × ℚ) :
    (decide (b.2 ≤ a.2) || decide (a.2 ≤ b.2)) = true := by
  simp only [Bool.or_eq_true, decide_eq_true_eq]
  exact le_total _ _

theorem mem_purchasedSkus_of_matched {ps : List Product}
    {rs : List PurchaseRecord} {sid : ℤ} {k : String}
    (h : k ∈ matchedSkus ps rs sid) : k ∈ purchasedSkus rs sid := by
  unfold matchedSkus at h
  unfold purchasedSkus
  simp only [List.mem_map, List.mem_flatMap] at h ⊢
  obtain ⟨it, ⟨r, hr, hit⟩, rfl⟩ := h
  exact ⟨it, ⟨r, hr, List.mem_of_mem_filter hit⟩, rfl⟩

/-- C8: for every successful run with distinct seller ids, a seller's
top-products list has length `min 10 (number of distinct resolved skus they
sold)`, is ordered by non-increasing quantity, and contains only skus
actually purchased from that seller. -/
theorem claim_C8 (ss : List Seller) (ps : List Product)
    (rs : List PurchaseRecord) (f : Item → Product → ℚ)
    (g : Nat → Nat → SellerStat → ℚ) (reports : List SellerReport)
    (hnd : (ss.map Seller.id).Nodup)
    (h : analyzeSalesData (some ⟨some ss, some ps, some rs⟩)
        (some ⟨.fn f, .fn g⟩) = .ok reports) :
    ∀ s ∈ ss, ∀ rep ∈ reports, rep.seller_id = s.id →
      rep.top_products.length = min 10 (matchedSkus ps rs s.id).dedup.length
    ∧ (rep.top_products.Pairwise fun a b => b.2 ≤ a.2)
    ∧ ∀ pr ∈ rep.top_products, pr.1 ∈ purchasedSkus rs s.id := by
  obtain rfl := analyzeSalesData_ok h
  intro s hs rep hrep hid
  obtain ⟨s', hs', i, rfl⟩ := mem_reports_statFor hnd hrep
  have hid' : s'.id = s.id := by
    rw [← hid]
    show s'.id = (statFor f ps rs s').id
    rw [statFor_id]
  have hss : s' = s := List.inj_on_of_nodup_map hnd hs' hs hid'
  subst hss
  refine ⟨?_, ?_, ?_⟩
  · show (((statFor f ps rs s').products_sold.mergeSort
      fun a b => decide (b.2 ≤ a.2)).take 10).length = _
    rw [List.length_take, List.length_mergeSort, statFor_sold_length]
  · have hsort : ((statFor f ps rs s').products_sold.mergeSort
        fun a b => decide (b.2 ≤ a.2)).Pairwise
        (fun a b => decide (b.2 ≤ a.2) = true) :=
      List.sorted_mergeSort qtyLE_trans qtyLE_total
        ((statFor f ps rs s').products_sold)
    have htake := List.Pairwise.sublist (List.take_sublist 10 _) hsort
    exact htake.imp fun hab => by simpa using hab
  · intro pr hpr
    have h1 := List.mem_of_mem_take hpr
    have h2 : pr ∈ (statFor f ps rs s').products_sold :=
      List.mem_mergeSort.mp h1
    have h3 : pr.1 ∈ (statFor f ps rs s').products_sold.map Prod.fst :=
      List.mem_map_of_mem Prod.fst h2
    exact mem_purchasedSkus_of_matched ((fst_mem_statFor f ps rs s' pr.1).mp h3)

/-- C8 witness: on the one-record example the top list is `[("X", 2)]` of
length `min 10 1`. -/
theorem claim_C8_witness :
    reportC2.top_products.length =
      min 10 (matchedSkus [⟨"X", 10⟩] [⟨1, [⟨"X", 2, 20, 0⟩], none⟩] 1).dedup.length
  ∧ (reportC2.top_products.Pairwise fun a b => b.2 ≤ a.2)
  ∧ ("X", (2 : ℚ)).1 ∈ purchasedSkus [⟨1, [⟨"X", 2, 20, 0⟩], none⟩] 1 := by
  have h : analyzeSalesData
      (some ⟨some [⟨1, "A", "B"⟩], some [⟨"X", 10⟩],
        some [⟨1, [⟨"X", 2, 20, 0⟩], none⟩]⟩)
      (some ⟨.fn calculateSimpleRevenue, .fn calculateBonusByProfit⟩) =
      .ok [reportC2] := by
    simp [analyzeSalesData, reportC2, analyzeCore, foldStats,
      initStats, initStat, processRecord, lastIdxWithId, modifyAt, applyRecord,
      processItem, lookupProduct, updateSold, addTA, sortStats, emitReports,
      reportOf, round2, calculateSimpleRevenue, calculateBonusByProfit,
      RevenueSlot.isFalsy, BonusSlot.isFalsy]
    norm_num
  have hc := claim_C8 [⟨1, "A", "B"⟩] [⟨"X", 10⟩] [⟨1, [⟨"X", 2, 20, 0⟩], none⟩]
    calculateSimpleRevenue calculateBonusByProfit [reportC2] (by simp) h
    ⟨1, "A", "B"⟩ (by simp) reportC2 (by simp) rfl
  exact ⟨hc.1, hc.2.1, hc.2.2 ("X", 2) (by simp [reportC2])⟩
